import Mathlib

/-!
Verification of the evaluator of the Lugli language interpreter
(src/src/interpreter.rs), shallowly embedded in Lean.

Modelling conventions:
* Rust `f64` numbers are modelled as `ℚ`; the claims under study do not
  involve IEEE-754 special values or decimal formatting.
* `Rc<RefCell<Vec<Value>>>` lists and `Rc<RefCell<Environment>>`
  struct-instance environments are modelled with explicit heaps inside
  `State` (`lists`, `envs`), so in-place mutation and the "fresh shared
  holder" re-wrapping of struct instances are observable.
* Rust panics (`todo!`, `unreachable!`, `unimplemented!`, `Vec` index
  out of bounds, `Option::expect`) are modelled by the distinguished
  outcome `Err.panicked`, kept apart from the interpreter's own
  `InterpreterResult` error variants.
* The mutually recursive evaluator is made total with a fuel parameter;
  running out of fuel yields the distinguished outcome `Err.outOfFuel`.
* `src/src/ast.rs` and `src/src/environment.rs` are not part of the
  sources; the AST shapes are reconstructed from their uses in
  src/src/parser.rs and src/src/interpreter.rs, and the environment and
  the value coercion helpers are modelled from the specification
  (spec §3.1–§3.3), as marked on each such definition.
-/

namespace Lugli

/-- Operators (`Op` in src/src/ast.rs, mirrored from its uses in
src/src/parser.rs and src/src/interpreter.rs). -/
inductive Op
| add
| subtract
| multiply
| divide
| modulo
| pow
| equals
| notEquals
| lessThan
| lessThanOrEquals
| greaterThan
| greaterThanOrEquals
| andOp
| orOp
| inOp
| notInOp
| bang
deriving Repr

mutual

/-- Expressions (`Expression` in src/src/ast.rs, reconstructed from
parser.rs and interpreter.rs). -/
inductive Expression
| num (n : ℚ)
| strE (s : String)
| boolE (b : Bool)
| nullE
| ident (name : String)
| listE (items : List Expression)
| indexE (target : Expression) (idx : Option (Expression))
| getProp (target : Expression) (field : String)
| setProp (target : Expression) (field : String) (value : Expression)
| methodCall (target : Expression) (field : String) (args : List Argument)
| callE (callable : Expression) (args : List Argument)
| closure (params : List Param) (body : List Statement)
| structE (defn : Expression) (fields : List (String × Expression))
| infixE (l : Expression) (op : Op) (r : Expression)
| prefixE (op : Op) (r : Expression)
| assign (target : Expression) (value : Expression)
| mathAssign (target : Expression) (op : Op) (value : Expression)

/-- A call argument, positional (`name = none`) or named
(`Argument` in src/src/ast.rs). -/
inductive Argument
| mk (name : Option String) (expression : Expression)

/-- A declared parameter, optionally default-valued
(`Parameter` in src/src/ast.rs). -/
inductive Param
| mk (name : String) (initial : Option (Expression))

/-- A guarded block, used by `if` / `elif` / `while`
(`ConditionBlock` in src/src/ast.rs). -/
inductive ConditionBlock
| mk (expression : Expression) (thenB : List Statement)

/-- Statements (`Statement` in src/src/ast.rs). -/
inductive Statement
| createDecl (name : String) (initial : Option (Expression))
| constDecl (name : String) (initial : Expression)
| functionDecl (name : String) (params : List Param) (body : List Statement)
| structDecl (name : String) (fields : List Param)
| forS (value : String) (index : Option String) (iterable : Expression) (thenB : List Statement)
| whileS (condition : ConditionBlock)
| loopS (body : List Statement)
| ifS (condition : ConditionBlock) (others : Option (List ConditionBlock))
      (otherwise : Option (List Statement))
| exprS (expression : Expression)
| returnS (value : Expression)
| breakS
| continueS

/-- Runtime values (`Value` in src/src/environment.rs; the variant list is
spec §3.2, their payloads are mirrored from every use in interpreter.rs).
`list` and `structInstance` carry heap addresses, modelling `Rc` sharing.
Native callbacks live in the stdlib, outside the evaluator (spec §1), so
`nativeFunction` / `nativeMethod` carry only name and receiver context. -/
inductive Value
| number (n : ℚ)
| str (s : String)
| boolV (b : Bool)
| null
| list (addr : Nat)
| function (name : String) (params : List Param) (body : List Statement)
           (environment : Option Environment) (context : Option (Expression))
| nativeFunction (name : String)
| nativeMethod (name : String) (context : Expression)
| structDef (name : String) (fields : List Param) (methods : List (String × Value))
| structInstance (envAddr : Nat) (defn : Value)
| constant (inner : Value)
| dateTime

/-- Modelled from the spec: `Environment` (src/src/environment.rs is not in
the sources). Spec §3.3: "A lexical frame: ordered mapping from names to
values, with a parent pointer." The chain is modelled as a list of frames,
innermost first; interpreter.rs itself only ever builds single-frame
environments (`Environment::new()` and clones thereof). -/
inductive Environment
| mk (frames : List (List (String × Value)))

end

/-- The typed non-local exit channel (`InterpreterResult` in
src/src/interpreter.rs, lines 38-78), extended with the two modelling
outcomes `panicked` (a Rust panic, which is not an interpreter error) and
`outOfFuel`. -/
inductive Err
| ret (v : Value)
| brk
| cont
| errorMsg (s : String)
| undefinedVariable (name : String)
| undefinedIndex (i : Nat)
| undefinedField (owner field : String)
| undefinedMethod (owner field : String)
| invalidIterable (tname : String)
| tooFewArguments (name : String) (passed expected : Nat)
| invalidAppendTarget (tname : String)
| invalidMethodAssignmentTarget (tname : String)
| cannotAssignValueToConstant
| externalNative (name : String)
| panicked (msg : String)
| outOfFuel

/-- Outcome of one pass over a loop body (the inner `for statement in …`
match in the `For` / `While` / `Loop` arms of `run_statement`):
proceed to the next iteration (also after `Continue`), break the loop,
or propagate an error. -/
inductive LoopSig
| next
| brk
| err (e : Err)

/-- A call argument already evaluated to a value (`ArgumentValued` in
src/src/environment.rs, modelled from the spec: an ordered sequence of
optionally named values). -/
structure ArgValued where
  name : Option String
  value : Value

/-- Projection of `Param`. -/
def Param.name : Param → String
| .mk n _ => n

/-- Projection of `Param`. -/
def Param.initial : Param → Option Expression
| .mk _ i => i

/-- `Parameter::has_initial`. -/
def Param.hasInitial : Param → Bool
| .mk _ i => i.isSome

/-- First match in one frame (ordered mapping lookup). -/
def frameGet : List (String × Value) → String → Option Value
| [], _ => none
| (k, v) :: rest, n => if k == n then some v else frameGet rest n

/-- Replace the first binding of a name in one frame. -/
def frameUpdate : List (String × Value) → String → Value → List (String × Value)
| [], n, v => [(n, v)]
| (k, w) :: rest, n, v => if k == n then (n, v) :: rest else (k, w) :: frameUpdate rest n v

/-- Modelled from the spec (§3.3): reads traverse the chain to the root. -/
def framesGet : List (List (String × Value)) → String → Option Value
| [], _ => none
| f :: rest, n =>
  match frameGet f n with
  | some v => some v
  | none => framesGet rest n

/-- Modelled from the spec (§3.3): writes mutate the innermost frame that
already binds the name, otherwise create the binding in the current frame. -/
def framesSet : List (List (String × Value)) → String → Value → List (List (String × Value))
| [], n, v => [[(n, v)]]
| f :: rest, n, v =>
  if (frameGet f n).isSome then frameUpdate f n v :: rest
  else if (framesGet rest n).isSome then f :: framesSet rest n v
  else (f ++ [(n, v)]) :: rest

/-- Modelled from the spec (§3.3): environment lookup. -/
def Environment.get : Environment → String → Option Value
| .mk fs, n => framesGet fs n

/-- Modelled from the spec (§3.3): environment write. -/
def Environment.set : Environment → String → Value → Environment
| .mk fs, n, v => .mk (framesSet fs n v)

/-- Modelled from the spec (§3.3): `drop(name)` removes a binding from the
current frame only. -/
def Environment.drop : Environment → String → Environment
| .mk [], _ => .mk []
| .mk (f :: rest), n => .mk (f.filter (fun p => p.1 != n) :: rest)

/-- `Environment::new()`: a single fresh frame. -/
def Environment.new : Environment := .mk [[]]

/-- Interpreter state: the global table, the current environment, and the
two heaps backing `Rc`-shared lists and struct-instance environments. -/
structure State where
  globals : List (String × Value)
  env : Environment
  lists : List (List Value)
  envs : List Environment

/-- The state the interpreter starts from (stdlib registration aside). -/
def State.initial : State :=
  { globals := [], env := Environment.new, lists := [], envs := [] }

/-- Dereference a list heap address. -/
def State.getList (s : State) (a : Nat) : List Value :=
  (s.lists.get? a).getD []

/-- Overwrite a heap-allocated list in place. -/
def State.setList (s : State) (a : Nat) (items : List Value) : State :=
  { s with lists := s.lists.set a items }

/-- Allocate a fresh shared list. -/
def State.allocList (s : State) (items : List Value) : State × Value :=
  ({ s with lists := s.lists ++ [items] }, .list s.lists.length)

/-- Dereference a struct-instance environment heap address. -/
def State.getEnv (s : State) (a : Nat) : Environment :=
  (s.envs.get? a).getD Environment.new

/-- Overwrite a heap-allocated struct-instance environment in place. -/
def State.setEnv (s : State) (a : Nat) (e : Environment) : State :=
  { s with envs := s.envs.set a e }

/-- Allocate a fresh shared struct-instance environment. -/
def State.allocEnv (s : State) (e : Environment) : State × Nat :=
  ({ s with envs := s.envs ++ [e] }, s.envs.length)

/-- `HashMap::insert` on the global table (order-preserving association
list model). -/
def globalsInsert (g : List (String × Value)) (n : String) (v : Value) :
    List (String × Value) :=
  if (frameGet g n).isSome then frameUpdate g n v else g ++ [(n, v)]

/-- Modelled from the spec: `Value::typestring` (src/src/environment.rs is
not in the sources); the names follow the value kinds of spec §3.2 as they
appear in the rendered error messages. -/
def Value.typestring : Value → String
| .number _ => "Number"
| .str _ => "String"
| .boolV _ => "Bool"
| .null => "Null"
| .list _ => "List"
| .function _ _ _ _ _ => "Function"
| .nativeFunction _ => "NativeFunction"
| .nativeMethod _ _ => "NativeMethod"
| .structDef _ _ _ => "Struct"
| .structInstance _ _ => "StructInstance"
| .constant _ => "Constant"
| .dateTime => "DateTime"

/-- Modelled from the spec: boolean coercion `Value::to_bool`
(src/src/environment.rs is not in the sources; spec §4.2 "truthy").
No claim under study depends on the coercion of non-boolean values. -/
def Value.to_bool : Value → Bool
| .boolV b => b
| .null => false
| .number n => decide (n ≠ 0)
| _ => true

/-- Modelled from the spec: numeric coercion `Value::to_number`
(src/src/environment.rs is not in the sources). Only the `Number` case is
fixed by the spec; claims about coercing operands take the coercion result
as a hypothesis. -/
def Value.to_number : Value → ℚ
| .number n => n
| .boolV true => 1
| .boolV false => 0
| _ => 0

/-- Truncation toward zero, the behaviour of Rust's `f64 as usize`
(saturating at zero for negative inputs). -/
def toUsize (q : ℚ) : Nat :=
  if q < 0 then 0 else q.floor.toNat

/-- Modelled from the spec: the value-equality predicate `Value::is` used
by the `In` / `NotIn` membership test (src/src/environment.rs is not in
the sources; spec §4.4 "linear membership using value-equality predicate").
The claim about `NotIn` holds for any such predicate. -/
def Value.is : Value → Value → Bool
| .number a, .number b => decide (a = b)
| .str a, .str b => a == b
| .boolV a, .boolV b => a == b
| .null, .null => true
| .list a, .list b => a == b
| _, _ => false

/-- Decimal rendering of a number for string concatenation; the IEEE-754
decimal formatting of the source is abstracted (no claim depends on it). -/
def numToString (q : ℚ) : String := toString q

/-- Truncated division result, mirroring Rust's `%` on `f64`
(remainder with the sign of the dividend). -/
def qtrunc (q : ℚ) : ℤ := q.num / (q.den : ℤ)

/-- The `%` of the operator table (spec §4.4). -/
def qmod (a b : ℚ) : ℚ := a - b * (qtrunc (a / b) : ℚ)

/-- `f64::powf` restricted to the exactly representable case of an integral
exponent (no claim depends on the transcendental cases). -/
def qpow (a b : ℚ) : ℚ := if b.den = 1 then a ^ b.num else 0

/-- Substring containment, Rust's `str::contains`. -/
def strContains (hay needle : String) : Bool :=
  (List.range (hay.length + 1)).any (fun i => needle.data.isPrefixOf (hay.data.drop i))

/-- `Interpreter::call`, lines 283-289: walk the arguments in order and
remove from the parameter list every parameter satisfied by a matching
named argument. -/
def paramsToSatisfy (params : List Param) (arguments : List ArgValued) : List Param :=
  arguments.foldl
    (fun acc arg =>
      match arg.name with
      | some n =>
        if acc.any (fun p => p.name == n) then acc.filter (fun p => p.name != n) else acc
      | none => acc)
    params

/-- `Interpreter::call`, lines 302-304: bind every named argument under its
name, overriding any default just set. -/
def bindNamed : Environment → List ArgValued → Environment
| env, [] => env
| env, a :: rest =>
  match a.name with
  | some n => bindNamed (env.set n a.value) rest
  | none => bindNamed env rest

/-- `Interpreter::call`, lines 305-307: zip the still-unsatisfied
parameters with the nameless arguments in order; extra positionals are
silently discarded. -/
def bindPositional (env : Environment) (toSatisfy : List Param)
    (arguments : List ArgValued) : Environment :=
  (toSatisfy.zip (arguments.filter (fun a => a.name.isNone))).foldl
    (fun e pa => e.set pa.1.name pa.2.value) env

/-- Struct literal evaluation, lines 523-530: copy each method of the
definition into the instance environment, rebinding `environment` and
`context` to `None`; a non-function in the method table is the source's
`unreachable!`. -/
def copyMethods : Environment → List (String × Value) → Except Err Environment
| env, [] => .ok env
| env, (n, .function nm ps bd _ _) :: rest =>
  copyMethods (env.set n (.function nm ps bd none none)) rest
| _, (_, _) :: _ => .error (.panicked "non-function in struct method table")

/-- `get_property`, lines 669-684: the owner reported by `UndefinedField`
is the identifier text of the target expression, or `"None"`. -/
def ownerName : Expression → String
| .ident i => i
| _ => "None"

/-- The arithmetic match inside the `MathAssign` arm, lines 565-571;
`none` is the source's `unreachable!` fall-through. -/
def mathApply : Op → ℚ → ℚ → Option ℚ
| .add, n, q => some (n + q)
| .subtract, n, q => some (n - q)
| .multiply, n, q => some (n * q)
| .divide, n, q => some (n / q)
| _, _, _ => none

/-- The operator dispatch table of the `Infix` arm, lines 424-471, with the
arms in source order (the `And` / `Or` arms accept any operand kinds; the
final fall-through is the source's `todo!`). Membership reads the list
heap; no arm mutates the state. -/
def infixValues (s : State) (l : Value) (op : Op) (r : Value) : Except Err Value :=
  match l, op, r with
  | .number a, .add, .number b => .ok (.number (a + b))
  | .number a, .multiply, .number b => .ok (.number (a * b))
  | .number a, .divide, .number b => .ok (.number (a / b))
  | .number a, .subtract, .number b => .ok (.number (a - b))
  | .number a, .add, .str b => .ok (.str (numToString a ++ b))
  | .str a, .add, .number b => .ok (.str (a ++ numToString b))
  | .str a, .add, .str b => .ok (.str (a ++ b))
  | .number a, .modulo, .number b => .ok (.number (qmod a b))
  | .str a, .equals, .str b => .ok (.boolV (a == b))
  | .number a, .equals, .number b => .ok (.boolV (decide (a = b)))
  | .boolV a, .equals, .boolV b => .ok (.boolV (a == b))
  | .str a, .notEquals, .str b => .ok (.boolV (a != b))
  | .number a, .notEquals, .number b => .ok (.boolV (decide (a ≠ b)))
  | .boolV a, .notEquals, .boolV b => .ok (.boolV (a != b))
  | .number a, .lessThan, .number b => .ok (.boolV (decide (a < b)))
  | .number a, .greaterThan, .number b => .ok (.boolV (decide (a > b)))
  | .number a, .lessThanOrEquals, .number b => .ok (.boolV (decide (a ≤ b)))
  | .number a, .greaterThanOrEquals, .number b => .ok (.boolV (decide (a ≥ b)))
  | lv, .andOp, rv => .ok (.boolV (lv.to_bool && rv.to_bool))
  | lv, .orOp, rv => .ok (.boolV (lv.to_bool || rv.to_bool))
  | .number a, .pow, .number b => .ok (.number (qpow a b))
  | lv, .inOp, .list addr =>
    .ok (.boolV (!((s.getList addr).filter (fun v => v.is lv)).isEmpty))
  | .str a, .inOp, .str b => .ok (.boolV (strContains b a))
  | lv, .notInOp, .list addr =>
    .ok (.boolV ((s.getList addr).filter (fun v => v.is lv)).isEmpty)
  | .str a, .notInOp, .str b => .ok (.boolV (!strContains b a))
  | _, _, _ => .error (.panicked "unsupported operand types for operator")

mutual

/-- `Interpreter::run_statement` (lines 101-260). Every recursive call
consumes one unit of fuel. -/
def runStatement : Nat → State → Statement → State × Except Err Unit
| 0, s, _ => (s, .error .outOfFuel)
| fuel+1, s, stmt =>
  match stmt with
  | .createDecl name initial =>
    match initial with
    | none => ({ s with env := s.env.set name .null }, .ok ())
    | some e =>
      match runExpression fuel s e with
      | (s', .ok v) => ({ s' with env := s'.env.set name v }, .ok ())
      | (s', .error err) => (s', .error err)
  | .constDecl name initial =>
    match runExpression fuel s initial with
    | (s', .ok v) => ({ s' with env := s'.env.set name (.constant v) }, .ok ())
    | (s', .error err) => (s', .error err)
  | .functionDecl name params body =>
    ({ s with globals := globalsInsert s.globals name (.function name params body none none) },
     .ok ())
  | .structDecl name fields =>
    let methods := fields.foldl
      (fun acc f =>
        match f with
        | .mk fname (some (.closure ps bd)) =>
          acc ++ [(fname, Value.function fname ps bd (some s.env) none)]
        | _ => acc) []
    let fieldsFiltred := fields.filter
      (fun f => match f with | .mk _ (some (.closure _ _)) => false | _ => true)
    ({ s with globals := globalsInsert s.globals name (.structDef name fieldsFiltred methods) },
     .ok ())
  | .forS value index iterable thenB =>
    match runExpression fuel s iterable with
    | (s', .error err) => (s', .error err)
    | (s', .ok iv) =>
      match iv with
      | .list addr =>
        let items := s'.getList addr
        if items.isEmpty then (s', .ok ())
        else
          match forIterate fuel s' 0 items value index thenB with
          | (s'', .error err) => (s'', .error err)
          | (s'', .ok ()) =>
            let s₃ := { s'' with env := s''.env.drop value }
            match index with
            | some ix => ({ s₃ with env := s₃.env.drop ix }, .ok ())
            | none => (s₃, .ok ())
      | _ => (s', .error (.invalidIterable iv.typestring))
  | .whileS cond =>
    match cond with
    | .mk ce cthen => whileLoop fuel s ce cthen
  | .loopS body => loopIter fuel s body
  | .ifS cond others otherwise =>
    match cond with
    | .mk ce cthen =>
      match runExpression fuel s ce with
      | (s', .error err) => (s', .error err)
      | (s', .ok cv) =>
        if cv.to_bool then runStatements fuel s' cthen
        else
          match runElifs fuel s' (others.getD []) with
          | (s'', .error err) => (s'', .error err)
          | (s'', .ok true) => (s'', .ok ())
          | (s'', .ok false) =>
            match otherwise with
            | some stmts => runStatements fuel s'' stmts
            | none => (s'', .ok ())
  | .exprS e =>
    match runExpression fuel s e with
    | (s', .ok _) => (s', .ok ())
    | (s', .error err) => (s', .error err)
  | .returnS v =>
    match runExpression fuel s v with
    | (s', .ok val) => (s', .error (.ret val))
    | (s', .error err) => (s', .error err)
  | .breakS => (s, .error .brk)
  | .continueS => (s, .error .cont)

/-- Plain statement sequencing with `?`-propagation (top-level `run` /
`exec` and the `If` bodies). -/
def runStatements : Nat → State → List Statement → State × Except Err Unit
| _, s, [] => (s, .ok ())
| 0, s, _ :: _ => (s, .error .outOfFuel)
| fuel+1, s, stmt :: rest =>
  match runStatement fuel s stmt with
  | (s', .ok ()) => runStatements fuel s' rest
  | (s', .error err) => (s', .error err)

/-- The `elif` walk of the `If` arm (lines 223-237); the boolean reports
whether some branch fired. -/
def runElifs : Nat → State → List ConditionBlock → State × Except Err Bool
| _, s, [] => (s, .ok false)
| 0, s, _ :: _ => (s, .error .outOfFuel)
| fuel+1, s, .mk ce cthen :: rest =>
  match runExpression fuel s ce with
  | (s', .error err) => (s', .error err)
  | (s', .ok cv) =>
    if cv.to_bool then
      match runStatements fuel s' cthen with
      | (s'', .ok ()) => (s'', .ok true)
      | (s'', .error err) => (s'', .error err)
    else runElifs fuel s' rest

/-- One pass over a loop body, catching `Break` / `Continue` per statement
(the inner match of the `For` / `While` / `Loop` arms). -/
def runLoopBody : Nat → State → List Statement → State × LoopSig
| _, s, [] => (s, .next)
| 0, s, _ :: _ => (s, .err .outOfFuel)
| fuel+1, s, stmt :: rest =>
  match runStatement fuel s stmt with
  | (s', .ok ()) => runLoopBody fuel s' rest
  | (s', .error .brk) => (s', .brk)
  | (s', .error .cont) => (s', .next)
  | (s', .error e) => (s', .err e)

/-- The iteration of the `For` arm (lines 165-180): bind the loop value
(and the index when present) in the current frame, run the body, repeat.
The source iterates a `RefCell` borrow taken at entry, so the items are a
snapshot. -/
def forIterate : Nat → State → Nat → List Value → String → Option String →
    List Statement → State × Except Err Unit
| _, s, _, [], _, _, _ => (s, .ok ())
| 0, s, _, _ :: _, _, _, _ => (s, .error .outOfFuel)
| fuel+1, s, i, item :: rest, value, index, body =>
  let s₁ := { s with env := s.env.set value item }
  let s₂ :=
    match index with
    | some ix => { s₁ with env := s₁.env.set ix (.number i) }
    | none => s₁
  match runLoopBody fuel s₂ body with
  | (s', .next) => forIterate fuel s' (i + 1) rest value index body
  | (s', .brk) => (s', .ok ())
  | (s', .err e) => (s', .error e)

/-- The `While` arm (lines 189-200). -/
def whileLoop : Nat → State → Expression → List Statement → State × Except Err Unit
| 0, s, _, _ => (s, .error .outOfFuel)
| fuel+1, s, ce, body =>
  match runExpression fuel s ce with
  | (s', .error err) => (s', .error err)
  | (s', .ok cv) =>
    if cv.to_bool then
      match runLoopBody fuel s' body with
      | (s'', .next) => whileLoop fuel s'' ce body
      | (s'', .brk) => (s'', .ok ())
      | (s'', .err e) => (s'', .error e)
    else (s', .ok ())

/-- The `Loop` arm (lines 202-211). -/
def loopIter : Nat → State → List Statement → State × Except Err Unit
| 0, s, _ => (s, .error .outOfFuel)
| fuel+1, s, body =>
  match runLoopBody fuel s body with
  | (s', .next) => loopIter fuel s' body
  | (s', .brk) => (s', .ok ())
  | (s', .err e) => (s', .error e)

/-- `Interpreter::call` (lines 262-334). The new frame is the captured
environment itself when present, else `Environment::new()`; default
expressions are evaluated BEFORE `self.environment` is swapped to the new
frame (lines 297-300 precede line 309), i.e. in the caller's environment;
on an error escaping the body the previous environment is not restored
(line 319 returns before line 324). -/
def callV : Nat → State → Value → List ArgValued → State × Except Err Value
| 0, s, _, _ => (s, .error .outOfFuel)
| fuel+1, s, callable, arguments =>
  match callable with
  | .constant v => callV fuel s v arguments
  | .nativeFunction name => (s, .error (.externalNative name))
  | .nativeMethod name ctx =>
    match runExpression fuel s ctx with
    | (s', .error e) => (s', .error e)
    | (s', .ok _) => (s', .error (.externalNative name))
  | .function name params body environment context =>
    let oldEnv := s.env
    let newEnv := match environment with | some e => e | none => Environment.new
    let step : State × Except Err (Environment × List Param) :=
      match context with
      | none => (s, .ok (newEnv, params))
      | some ctxE =>
        match params with
        | .mk "this" none :: _ =>
          match runExpression fuel s ctxE with
          | (s', .ok cv) =>
            (s', .ok (newEnv.set "this" cv, params.filter (fun p => p.name != "this")))
          | (s', .error e) => (s', .error e)
        | _ => (s, .ok (newEnv, params))
    match step with
    | (s', .error e) => (s', .error e)
    | (s₁, .ok (newEnv₁, params₁)) =>
      let toSatisfy := paramsToSatisfy params₁ arguments
      let requiredCount := (toSatisfy.filter (fun p => !p.hasInitial)).length
      if arguments.length < requiredCount then
        (s₁, .error (.tooFewArguments name arguments.length requiredCount))
      else
        match bindDefaults fuel s₁ newEnv₁ (params₁.filter (fun p => p.hasInitial)) with
        | (s₂, .error e) => (s₂, .error e)
        | (s₂, .ok newEnv₂) =>
          let s₃ := { s₂ with env := bindPositional (bindNamed newEnv₂ arguments) toSatisfy arguments }
          match runFnBody fuel s₃ body with
          | (s₄, .error e) => (s₄, .error e)
          | (s₄, .ok ret) => ({ s₄ with env := oldEnv }, .ok (ret.getD .null))
  | _ => (s, .error (.panicked "call: value is not callable"))

/-- The default-binding loop of `call` (lines 297-300): evaluate each
default expression with the interpreter's current (caller) environment and
bind the result in the accumulated new frame. Also reused for the
single-iteration `find` loop of struct-literal instantiation (line 495),
which has the same body. -/
def bindDefaults : Nat → State → Environment → List Param → State × Except Err Environment
| _, s, env, [] => (s, .ok env)
| 0, s, _, _ :: _ => (s, .error .outOfFuel)
| fuel+1, s, env, p :: rest =>
  match p.initial with
  | some e =>
    match runExpression fuel s e with
    | (s', .ok v) => bindDefaults fuel s' (env.set p.name v) rest
    | (s', .error err) => (s', .error err)
  | none => bindDefaults fuel s env rest

/-- The body loop of `call` (lines 311-322): run the body statements,
capturing a `Return` payload. -/
def runFnBody : Nat → State → List Statement → State × Except Err (Option Value)
| _, s, [] => (s, .ok none)
| 0, s, _ :: _ => (s, .error .outOfFuel)
| fuel+1, s, stmt :: rest =>
  match runStatement fuel s stmt with
  | (s', .ok ()) => runFnBody fuel s' rest
  | (s', .error (.ret v)) => (s', .ok (some v))
  | (s', .error e) => (s', .error e)

/-- `Interpreter::get_property` (lines 661-757). -/
def getProperty : Nat → State → Value → String → Expression → Expression →
    State × Except Err Value
| 0, s, _, _, _, _ => (s, .error .outOfFuel)
| fuel+1, s, value, field, target, wholeE =>
  match value with
  | .structInstance envAddr defn =>
    match (s.getEnv envAddr).get field with
    | some v =>
      match v with
      | .function nm ps bd fenv _ =>
        match wholeE with
        | .methodCall _ _ _ => (s, .ok (.function nm ps bd fenv (some target)))
        | _ => (s, .error (.undefinedField (ownerName target) field))
      | _ =>
        match wholeE with
        | .getProp _ _ => (s, .ok v)
        | _ => (s, .error (.undefinedField (ownerName target) field))
    | none =>
      match (match defn with
             | .structDef _ dfields _ =>
               (dfields.find? (fun p => p.name == field)).bind Param.initial
             | _ => none) with
      | some ie =>
        match runExpression fuel s ie with
        | (s', .error e) => (s', .error e)
        | (s', .ok iv) =>
          match iv with
          | .function nm ps bd fenv _ => (s', .ok (.function nm ps bd fenv (some target)))
          | _ => (s', .ok iv)
      | none =>
        match defn with
        | .structDef dname _ _ => (s, .error (.undefinedField dname field))
        | _ => (s, .error (.panicked "instance definition is not a struct"))
  | .structDef nm fields methods =>
    match frameGet methods field with
    | some v => (s, .ok v)
    | none =>
      match (fields.find? (fun p => p.name == field)).bind Param.initial with
      | some ie =>
        match runExpression fuel s ie with
        | (s', .error e) => (s', .error e)
        | (s', .ok iv) =>
          match iv with
          | .function n2 ps bd fenv _ => (s', .ok (.function n2 ps bd fenv (some target)))
          | _ => (s', .ok iv)
      | none => (s, .error (.undefinedMethod nm field))
  | .str _ =>
    match wholeE with
    | .methodCall _ _ _ => (s, .ok (.nativeMethod field target))
    | _ => (s, .error (.panicked "String property access"))
  | .number _ =>
    match wholeE with
    | .methodCall _ _ _ => (s, .ok (.nativeMethod field target))
    | _ => (s, .error (.panicked "Number property access"))
  | .list _ =>
    match wholeE with
    | .methodCall _ _ _ => (s, .ok (.nativeMethod field target))
    | _ => (s, .error (.panicked "List property access"))
  | .constant v => getProperty fuel s v field target wholeE
  | .dateTime =>
    match wholeE with
    | .getProp _ _ => (s, .ok (.nativeMethod field target))
    | .setProp _ _ _ => (s, .ok (.nativeMethod field target))
    | .methodCall _ _ _ => (s, .ok (.nativeMethod field target))
    | _ => (s, .error (.panicked "DateTime property access"))
  | _ => (s, .error (.panicked "get_property: unsupported receiver"))

/-- The helper `assign_to_instance` of the `SetProperty` arm
(lines 385-415). The write into a struct definition's shared method table
only checks function-ness here; no claim observes the shared table. -/
def assignToInstance : Nat → State → Value → String → Value → Expression → Expression →
    State × Except Err Unit
| 0, s, _, _, _, _, _ => (s, .error .outOfFuel)
| fuel+1, s, inst, field, v, target, wholeE =>
  match inst with
  | .structInstance a _ => (s.setEnv a ((s.getEnv a).set field v), .ok ())
  | .structDef _ _ _ =>
    match v with
    | .function _ _ _ _ _ => (s, .ok ())
    | _ => (s, .error (.invalidMethodAssignmentTarget inst.typestring))
  | .constant v' => assignToInstance fuel s v' field v target wholeE
  | _ =>
    match getProperty fuel s inst field target wholeE with
    | (s', .error err) => (s', .error err)
    | (s', .ok callback) =>
      match callV fuel s' callback [⟨some field, v⟩] with
      | (s'', .error err) => (s'', .error err)
      | (s'', .ok result) =>
        match target with
        | .ident i => ({ s'' with env := s''.env.set i result }, .ok ())
        | _ => (s'', .error (.panicked "setter target must be an identifier"))

/-- The helper `assign_to_list` of the `Assign` arm (lines 586-604).
An out-of-range index on the write path is a `Vec` index panic, not an
interpreter error. -/
def assignToList : Nat → State → Value → Option Expression → Value →
    State × Except Err Unit
| 0, s, _, _, _ => (s, .error .outOfFuel)
| fuel+1, s, inst, index, v =>
  match inst with
  | .list a =>
    match index with
    | some ie =>
      match runExpression fuel s ie with
      | (s', .error err) => (s', .error err)
      | (s', .ok iv) =>
        let n := toUsize iv.to_number
        let items := s'.getList a
        if n < items.length then (s'.setList a (items.set n v), .ok ())
        else (s', .error (.panicked "index out of bounds"))
    | none => (s.setList a (s.getList a ++ [v]), .ok ())
  | _ => (s, .error (.invalidAppendTarget inst.typestring))

/-- The supplied-field loop of struct-literal instantiation
(lines 501-519): validate each supplied field name against the data
fields, evaluate it in the current environment, re-wrap struct-instance
values with a fresh shared environment holder, and bind it (overriding any
default already bound). -/
def runStructFields : Nat → State → Environment → String → List Param →
    List (String × Expression) → State × Except Err Environment
| _, s, env, _, _, [] => (s, .ok env)
| 0, s, _, _, _, _ :: _ => (s, .error .outOfFuel)
| fuel+1, s, env, sname, fieldDefs, (fname, fexpr) :: rest =>
  if !(fieldDefs.any (fun p => p.name == fname)) then
    (s, .error (.undefinedField sname fname))
  else
    match runExpression fuel s fexpr with
    | (s', .error err) => (s', .error err)
    | (s', .ok v) =>
      match v with
      | .structInstance a d =>
        match s'.allocEnv (s'.getEnv a) with
        | (s'', a') => runStructFields fuel s'' (env.set fname (.structInstance a' d)) sname fieldDefs rest
      | _ => runStructFields fuel s' (env.set fname v) sname fieldDefs rest

/-- Evaluation of the expressions of a call-argument list into
`ArgumentValues`, preserving name tags and order (lines 537-541 and
368-373). -/
def runArgs : Nat → State → List Argument → State × Except Err (List ArgValued)
| _, s, [] => (s, .ok [])
| 0, s, _ :: _ => (s, .error .outOfFuel)
| fuel+1, s, .mk nm ex :: rest =>
  match runExpression fuel s ex with
  | (s', .error err) => (s', .error err)
  | (s', .ok v) =>
    match runArgs fuel s' rest with
    | (s'', .error err) => (s'', .error err)
    | (s'', .ok vs) => (s'', .ok (⟨nm, v⟩ :: vs))

/-- Left-to-right evaluation of list-literal items (lines 473-481). -/
def runExprList : Nat → State → List Expression → State × Except Err (List Value)
| _, s, [] => (s, .ok [])
| 0, s, _ :: _ => (s, .error .outOfFuel)
| fuel+1, s, e :: rest =>
  match runExpression fuel s e with
  | (s', .error err) => (s', .error err)
  | (s', .ok v) =>
    match runExprList fuel s' rest with
    | (s'', .error err) => (s'', .error err)
    | (s'', .ok vs) => (s'', .ok (v :: vs))

/-- `Interpreter::run_expression` (lines 336-632). `Expression::Null` has
no arm in the source match and falls into the final `todo!`. -/
def runExpression : Nat → State → Expression → State × Except Err Value
| 0, s, _ => (s, .error .outOfFuel)
| fuel+1, s, e =>
  match e with
  | .num n => (s, .ok (.number n))
  | .strE t => (s, .ok (.str t))
  | .boolE b => (s, .ok (.boolV b))
  | .ident n =>
    match frameGet s.globals n with
    | some v => (s, .ok v)
    | none =>
      match s.env.get n with
      | some v => (s, .ok v)
      | none => (s, .error (.undefinedVariable n))
  | .indexE target idx =>
    match runExpression fuel s target with
    | (s', .error err) => (s', .error err)
    | (s', .ok inst) =>
      match idx with
      | none => (s', .error (.panicked "Expected index."))
      | some ie =>
        match runExpression fuel s' ie with
        | (s'', .error err) => (s'', .error err)
        | (s'', .ok iv) =>
          match inst with
          | .list addr =>
            match (s''.getList addr).get? (toUsize iv.to_number) with
            | some v => (s'', .ok v)
            | none => (s'', .error (.undefinedIndex (toUsize iv.to_number)))
          | _ => (s'', .error (.panicked "index target is not a list"))
  | .methodCall target field args =>
    match runExpression fuel s target with
    | (s', .error err) => (s', .error err)
    | (s', .ok inst) =>
      match getProperty fuel s' inst field target e with
      | (s'', .error err) => (s'', .error err)
      | (s'', .ok callable) =>
        match runArgs fuel s'' args with
        | (s₃, .error err) => (s₃, .error err)
        | (s₃, .ok argVals) => callV fuel s₃ callable argVals
  | .getProp target field =>
    match runExpression fuel s target with
    | (s', .error err) => (s', .error err)
    | (s', .ok inst) => getProperty fuel s' inst field target e
  | .setProp target field value =>
    match runExpression fuel s target with
    | (s', .error err) => (s', .error err)
    | (s', .ok inst) =>
      match runExpression fuel s' value with
      | (s'', .error err) => (s'', .error err)
      | (s'', .ok v) =>
        match assignToInstance fuel s'' inst field v target e with
        | (s₃, .error err) => (s₃, .error err)
        | (s₃, .ok ()) => (s₃, .ok .null)
  | .infixE l op r =>
    match runExpression fuel s l with
    | (s', .error err) => (s', .error err)
    | (s', .ok lv) =>
      match runExpression fuel s' r with
      | (s'', .error err) => (s'', .error err)
      | (s'', .ok rv) => (s'', infixValues s'' lv op rv)
  | .listE items =>
    match runExprList fuel s items with
    | (s', .error err) => (s', .error err)
    | (s', .ok vs) =>
      match s'.allocList vs with
      | (s'', v) => (s'', .ok v)
  | .closure params body =>
    (s, .ok (.function "Closure" params body (some s.env) none))
  | .structE defExpr fields =>
    match runExpression fuel s defExpr with
    | (s', .error err) => (s', .error err)
    | (s', .ok defv) =>
      match defv with
      | .structDef sname fieldDefs methods =>
        match bindDefaults fuel s' Environment.new
                ((fieldDefs.find? (fun p => p.hasInitial)).toList) with
        | (s₂, .error err) => (s₂, .error err)
        | (s₂, .ok env₀) =>
          match runStructFields fuel s₂ env₀ sname fieldDefs fields with
          | (s₃, .error err) => (s₃, .error err)
          | (s₃, .ok env₁) =>
            match copyMethods env₁ methods with
            | .error err => (s₃, .error err)
            | .ok env₂ =>
              match s₃.allocEnv env₂ with
              | (s₄, addr) => (s₄, .ok (.structInstance addr defv))
      | _ => (s', .error (.panicked "struct literal definition is not a struct"))
  | .callE cExpr args =>
    match runExpression fuel s cExpr with
    | (s', .error err) => (s', .error err)
    | (s', .ok callable) =>
      match runArgs fuel s' args with
      | (s'', .error err) => (s'', .error err)
      | (s'', .ok argVals) => callV fuel s'' callable argVals
  | .prefixE op r =>
    match runExpression fuel s r with
    | (s', .error err) => (s', .error err)
    | (s', .ok rv) =>
      match op with
      | .bang => (s', .ok (.boolV (!rv.to_bool)))
      | .subtract => (s', .ok (.number (-rv.to_number)))
      | _ => (s', .error (.panicked "prefix operator"))
  | .mathAssign target op value =>
    match runExpression fuel s target with
    | (s', .error err) => (s', .error err)
    | (s', .ok tv) =>
      match runExpression fuel s' value with
      | (s'', .error err) => (s'', .error err)
      | (s'', .ok v) =>
        match tv with
        | .number n =>
          match target with
          | .ident i =>
            match mathApply op n v.to_number with
            | some u =>
              ({ s'' with env := s''.env.set i (.number u) },
               .ok (.number (n + v.to_number)))
            | none => (s'', .error (.panicked "math-assign operator"))
          | _ => (s'', .error (.panicked "math-assign target is not an identifier"))
        | _ => (s'', .error (.panicked "math-assign target is not a number"))
  | .assign target value =>
    match runExpression fuel s value with
    | (s', .error err) => (s', .error err)
    | (s', .ok v) =>
      match target with
      | .indexE instExpr idx =>
        match runExpression fuel s' instExpr with
        | (s'', .error err) => (s'', .error err)
        | (s'', .ok inst) =>
          match assignToList fuel s'' inst idx v with
          | (s₃, .error err) => (s₃, .error err)
          | (s₃, .ok ()) => (s₃, .ok v)
      | _ =>
        match runExpression fuel s' target with
        | (s'', .error err) => (s'', .error err)
        | (s'', .ok tv) =>
          match tv with
          | .constant _ => (s'', .error .cannotAssignValueToConstant)
          | _ =>
            match target with
            | .ident i => ({ s'' with env := s''.env.set i v }, .ok v)
            | _ => (s'', .error (.panicked "unsupported assignment target"))
  | .nullE => (s, .error (.panicked "unhandled expression"))

end

/-- `Interpreter::exec` / `run`: the program statements in order. -/
def exec (fuel : Nat) (s : State) (prog : List Statement) : State × Except Err Unit :=
  runStatements fuel s prog

/-! ### Definitional one-step unfolding lemmas

Each restates one arm of the evaluator, so theorems can rewrite a single
call without unfolding the recursive occurrences inside it. -/

/-- One-step unfolding of the `Identifier` arm. -/
theorem runExpression_ident (fuel : Nat) (s : State) (n : String) :
    runExpression (fuel+1) s (.ident n) =
      (match frameGet s.globals n with
       | some v => (s, .ok v)
       | none =>
         match s.env.get n with
         | some v => (s, .ok v)
         | none => (s, .error (.undefinedVariable n))) := rfl

/-- One-step unfolding of the `Assign` arm. -/
theorem runExpression_assign (fuel : Nat) (s : State) (target ve : Expression) :
    runExpression (fuel+1) s (.assign target ve) =
      (match runExpression fuel s ve with
       | (s', .error err) => (s', .error err)
       | (s', .ok v) =>
         match target with
         | .indexE instExpr idx =>
           match runExpression fuel s' instExpr with
           | (s'', .error err) => (s'', .error err)
           | (s'', .ok inst) =>
             match assignToList fuel s'' inst idx v with
             | (s₃, .error err) => (s₃, .error err)
             | (s₃, .ok ()) => (s₃, .ok v)
         | _ =>
           match runExpression fuel s' target with
           | (s'', .error err) => (s'', .error err)
           | (s'', .ok tv) =>
             match tv with
             | .constant _ => (s'', .error .cannotAssignValueToConstant)
             | _ =>
               match target with
               | .ident i => ({ s'' with env := s''.env.set i v }, .ok v)
               | _ => (s'', .error (.panicked "unsupported assignment target"))) := rfl

/-- One-step unfolding of the `MathAssign` arm. -/
theorem runExpression_mathAssign (fuel : Nat) (s : State) (target : Expression)
    (op : Op) (ve : Expression) :
    runExpression (fuel+1) s (.mathAssign target op ve) =
      (match runExpression fuel s target with
       | (s', .error err) => (s', .error err)
       | (s', .ok tv) =>
         match runExpression fuel s' ve with
         | (s'', .error err) => (s'', .error err)
         | (s'', .ok v) =>
           match tv with
           | .number n =>
             match target with
             | .ident i =>
               match mathApply op n v.to_number with
               | some u =>
                 ({ s'' with env := s''.env.set i (.number u) },
                  .ok (.number (n + v.to_number)))
               | none => (s'', .error (.panicked "math-assign operator"))
             | _ => (s'', .error (.panicked "math-assign target is not an identifier"))
           | _ => (s'', .error (.panicked "math-assign target is not a number"))) := rfl

/-- One-step unfolding of the `ConstDeclaration` arm. -/
theorem runStatement_constDecl (fuel : Nat) (s : State) (name : String) (e : Expression) :
    runStatement (fuel+1) s (.constDecl name e) =
      (match runExpression fuel s e with
       | (s', .ok v) => ({ s' with env := s'.env.set name (.constant v) }, .ok ())
       | (s', .error err) => (s', .error err)) := rfl

/-! ### Programs and states used by the claim theorems -/

/-- Parameters `(a, b = a)`: the default of `b` names the earlier
parameter `a`. -/
def c1Params : List Param := [.mk "a" none, .mk "b" (some (.ident "a"))]

/-- `fn f(a, b = a) { return b }` registered as a global, with an empty
caller environment. -/
def c1State : State :=
  { globals := [("f", .function "f" c1Params [.returnS (.ident "b")] none none)],
    env := Environment.new, lists := [], envs := [] }

/-- The same program, but the caller's frame binds `a` to `w`. -/
def c1StateW (w : Value) : State :=
  { globals := [("f", .function "f" c1Params [.returnS (.ident "b")] none none)],
    env := .mk [[("a", w)]], lists := [], envs := [] }

/-- `struct S { a = 1, b = 2 }`: two default-valued data fields. -/
def c2Defn : List Param := [.mk "a" (some (.num 1)), .mk "b" (some (.num 2))]

/-- The state after running the declaration `struct S { a = 1, b = 2 }`. -/
def c2State : State := (runStatement 5 State.initial (.structDecl "S" c2Defn)).1

/-- `fn f(a, b) { return b }` registered as a global. -/
def c3State : State :=
  { globals := [("f", .function "f" [.mk "a" none, .mk "b" none]
                  [.returnS (.ident "b")] none none)],
    env := Environment.new, lists := [], envs := [] }

/-- `const a = 1` then `const b = a`. -/
def c4Prog : List Statement := [.constDecl "a" (.num 1), .constDecl "b" (.ident "a")]

/-- `fn k() {}` then `const k = 1` then `k = 2`: the const's name is
shadowed by a global function. -/
def c5Prog : List Statement :=
  [.functionDecl "k" [] [], .constDecl "k" (.num 1),
   .exprS (.assign (.ident "k") (.num 2))]

/-- A state whose lone frame binds `k` to a constant and whose global
table is empty. -/
def c5StateW : State :=
  { globals := [], env := .mk [[("k", .constant (.number 1))]], lists := [], envs := [] }

/-- `create x = 5` then `for x in [] {}`. -/
def c6Prog : List Statement :=
  [.createDecl "x" (some (.num 5)), .forS "x" none (.listE []) []]

/-- A state whose lone frame binds `xs` to the heap list holding `vs`. -/
def c6State (vs : List Value) : State :=
  { globals := [], env := .mk [[("xs", .list 0)]], lists := [vs], envs := [] }

/-! ### C1 — where default parameter expressions are evaluated -/

/-- C1, counterexample: calling `fn f(a, b = a) { return b }` as `f(5)`
from a scope that does not bind `a` fails with `UndefinedVariable("a")` —
so the default of `b` was NOT evaluated in the new call frame (where `a`
was about to be bound to `5`); under the claim the call would have
returned `5`. -/
theorem c1_counterexample_default_not_in_new_frame :
    runExpression 10 c1State (.callE (.ident "f") [.mk none (.num 5)]) =
      (c1State, .error (.undefinedVariable "a")) := rfl

/-- C1, amended: each default expression is evaluated in the caller's
(pre-call) environment, and the resulting value is bound in the new frame
before named and positional arguments are bound. Observably: with the
caller's frame binding `a ↦ w`, the call `f(v)` of
`fn f(a, b = a) { return b }` returns the caller's `w`, the positional
argument `v` having been bound to `a` only after `b`'s default was
already evaluated. -/
theorem c1_amended_default_reads_caller_frame (w : Value) (v : ℚ) :
    runExpression 10 (c1StateW w) (.callE (.ident "f") [.mk none (.num v)]) =
      (c1StateW w, .ok w) := rfl

/-! ### C2 — struct-literal default fields -/

/-- C2: instantiating `struct S { a = 1, b = 2 }` with `S { }` populates
the fresh instance environment with ONLY the first default-valued data
field (`a ↦ 1`); `b` is absent, because the source iterates
`field_definitions.iter().find(…)` — an `Option`, i.e. at most one
element — where iterating all default-valued fields is intended. -/
theorem c2_struct_literal_binds_only_first_default :
    runExpression 10 c2State (.structE (.ident "S") []) =
      ({ c2State with envs := [Environment.mk [[("a", .number 1)]]] },
       .ok (.structInstance 0 (.structDef "S" c2Defn []))) ∧
    ((runExpression 10 c2State (.structE (.ident "S") [])).1.getEnv 0).get "b" = none := by
  exact ⟨rfl, rfl⟩

/-! ### C4 — nesting of `Constant` wrappers -/

/-- C4, counterexample: after `const a = 1; const b = a` the binding of
`b` is `Constant(Constant(1))` — a `Constant` directly containing a
`Constant`, reachable from the initial state, so construction does not
collapse nesting. -/
theorem c4_counterexample_nested_constant :
    (exec 10 State.initial c4Prog).2 = .ok () ∧
    (exec 10 State.initial c4Prog).1.env.get "b" =
      some (.constant (.constant (.number 1))) := ⟨rfl, rfl⟩

/-- C4, amended: a `const` declaration wraps whatever value its initial
expression evaluates to in a `Constant` unconditionally — there is no
collapsing, so when the initial value is itself a `Constant` the new
binding nests two wrappers. -/
theorem c4_amended_const_wraps_without_collapse (s s' : State) (name : String)
    (e : Expression) (v : Value) (fuel : Nat)
    (h : runExpression fuel s e = (s', .ok v)) :
    runStatement (fuel+1) s (.constDecl name e) =
      ({ s' with env := s'.env.set name (.constant v) }, .ok ()) := by
  rw [runStatement_constDecl, h]

/-- C4, witness: the amended theorem applied to `const k = 3` in the
initial state. -/
theorem c4_const_wrap_witness :
    runStatement 3 State.initial (.constDecl "k" (.num 3)) =
      ({ State.initial with env := State.initial.env.set "k" (.constant (.number 3)) },
       .ok ()) :=
  c4_amended_const_wraps_without_collapse State.initial State.initial "k"
    (.num 3) (.number 3) 2 rfl

/-! ### Further one-step unfolding lemmas -/

/-- One-step unfolding of a number literal. -/
theorem runExpression_num (fuel : Nat) (s : State) (n : ℚ) :
    runExpression (fuel+1) s (.num n) = (s, .ok (.number n)) := rfl

/-- One-step unfolding of the `Index` read arm with a present index. -/
theorem runExpression_indexE (fuel : Nat) (s : State) (t ie : Expression) :
    runExpression (fuel+1) s (.indexE t (some ie)) =
      (match runExpression fuel s t with
       | (s', .error err) => (s', .error err)
       | (s', .ok inst) =>
         match runExpression fuel s' ie with
         | (s'', .error err) => (s'', .error err)
         | (s'', .ok iv) =>
           match inst with
           | .list addr =>
             match (s''.getList addr).get? (toUsize iv.to_number) with
             | some v => (s'', .ok v)
             | none => (s'', .error (.undefinedIndex (toUsize iv.to_number)))
           | _ => (s'', .error (.panicked "index target is not a list"))) := rfl

/-! ### C5 — assignment to a `const` binding -/

/-- C5, counterexample: after `fn k() {} ; const k = 1`, the assignment
`k = 2` succeeds (identifier resolution consults the global table before
the environment, and the global `k` is a function, not a `Constant`), and
it overwrites the const binding of `k` with `2` instead of failing with
`CannotAssignValueToConstant`. -/
theorem c5_counterexample_global_shadows_const :
    (exec 10 State.initial c5Prog).2 = .ok () ∧
    (exec 10 State.initial c5Prog).1.env.get "k" = some (.number 2) := ⟨rfl, rfl⟩

/-- C5, amended: provided the const's name is not bound in the global
table, every assignment whose target is that identifier fails with
`CannotAssignValueToConstant`, and the whole state — in particular the
binding — is left unchanged. -/
theorem c5_amended_const_assign_needs_no_global_shadow (s : State) (k : String)
    (w : Value) (q : ℚ) (fuel : Nat)
    (hg : frameGet s.globals k = none)
    (he : s.env.get k = some (.constant w)) :
    runExpression (fuel+2) s (.assign (.ident k) (.num q)) =
      (s, .error .cannotAssignValueToConstant) := by
  rw [runExpression_assign, runExpression_num]
  simp only [runExpression_ident, hg, he]

/-- C5, witness: the amended theorem at `k = 2` in a state whose lone
frame binds `k` to `Constant(1)` and whose global table is empty. -/
theorem c5_const_assign_witness :
    runExpression 2 c5StateW (.assign (.ident "k") (.num 2)) =
      (c5StateW, .error .cannotAssignValueToConstant) :=
  c5_amended_const_assign_needs_no_global_shadow c5StateW "k" (.number 1) 2 0 rfl rfl

/-! ### C7 — `NotIn` is the negation of `In` -/

/-- C7: for every left operand and every heap list on the right, `NotIn`
yields exactly the boolean negation of `In`; likewise for the
substring-containment case of two strings. -/
theorem c7_notin_negates_in :
    ∀ (s : State) (l : Value) (a : Nat) (ls rs : String),
      (∃ b : Bool, infixValues s l .inOp (.list a) = .ok (.boolV b) ∧
        infixValues s l .notInOp (.list a) = .ok (.boolV (!b))) ∧
      (∃ b : Bool, infixValues s (.str ls) .inOp (.str rs) = .ok (.boolV b) ∧
        infixValues s (.str ls) .notInOp (.str rs) = .ok (.boolV (!b))) := by
  intro s l a ls rs
  refine ⟨⟨!((s.getList a).filter (fun v => v.is l)).isEmpty, ?_, ?_⟩,
          ⟨strContains rs ls, rfl, rfl⟩⟩
  · cases l <;> rfl
  · cases l <;> (rw [Bool.not_not]; rfl)

/-! ### C8 — `MathAssign` rebinds with the operator but returns the sum -/

/-- C8: when the target identifier is bound (outside the global table) to
`Number(n)` and the right side evaluates without touching the state to a
value coercing to `q`, a `MathAssign` with any of its four reachable
operators rebinds the identifier to the operator's result `u`, yet the
value of the whole expression is always `Number(n + q)`, `Add` or not. -/
theorem c8_mathassign_result_always_sum (s : State) (i : String) (ve : Expression)
    (n u : ℚ) (rv : Value) (op : Op) (fuel : Nat)
    (hg : frameGet s.globals i = none)
    (he : s.env.get i = some (.number n))
    (hve : runExpression fuel s ve = (s, .ok rv))
    (hop : mathApply op n rv.to_number = some u) :
    runExpression (fuel+1) s (.mathAssign (.ident i) op ve) =
      ({ s with env := s.env.set i (.number u) }, .ok (.number (n + rv.to_number))) := by
  cases fuel with
  | zero => exact absurd hve (by simp [runExpression])
  | succ f =>
    rw [runExpression_mathAssign]
    simp only [runExpression_ident, hg, he]
    rw [hve]
    simp only [hop]

/-- C8, witness: `i *= 2` with `i ↦ 5` rebinds `i` to `10` but the
expression itself produces `7 = 5 + 2`. -/
theorem c8_mathassign_witness :
    runExpression 2 { globals := [], env := .mk [[("i", .number 5)]], lists := [], envs := [] }
        (.mathAssign (.ident "i") .multiply (.num 2)) =
      ({ globals := [], env := Environment.mk [[("i", .number 10)]], lists := [], envs := [] },
       .ok (.number 7)) := by
  have h := c8_mathassign_result_always_sum
    { globals := [], env := .mk [[("i", .number 5)]], lists := [], envs := [] }
    "i" (.num 2) 5 10 (.number 2) .multiply 1 rfl rfl rfl (by norm_num [mathApply, Value.to_number])
  have h78 : (5 : ℚ) + 2 = 7 := by norm_num
  simpa [Environment.set, framesSet, frameGet, frameUpdate, Value.to_number, h78] using h

/-! ### C9 — assignment to an undefined identifier -/

/-- C9: when the value expression evaluates successfully and the target
identifier is bound neither in the global table nor in the environment of
the resulting state, the assignment fails with `UndefinedVariable` and
the final state is exactly the post-value-evaluation state — the target
is evaluated before any rebinding, so no binding is created. -/
theorem c9_assign_undefined_variable (s s₁ : State) (x : String) (ve : Expression)
    (v : Value) (fuel : Nat)
    (hve : runExpression fuel s ve = (s₁, .ok v))
    (hg : frameGet s₁.globals x = none)
    (he : s₁.env.get x = none) :
    runExpression (fuel+1) s (.assign (.ident x) ve) =
      (s₁, .error (.undefinedVariable x)) := by
  cases fuel with
  | zero => exact absurd hve (by simp [runExpression])
  | succ f =>
    rw [runExpression_assign, hve]
    simp only [runExpression_ident, hg, he]

/-- C9, witness: `y = 1` in the initial state, where `y` is unbound. -/
theorem c9_assign_undefined_witness :
    runExpression 2 State.initial (.assign (.ident "y") (.num 1)) =
      (State.initial, .error (.undefinedVariable "y")) :=
  c9_assign_undefined_variable State.initial State.initial "y" (.num 1)
    (.number 1) 1 rfl rfl rfl

/-! ### C10 — indexed list assignment is unguarded out of range -/

/-- C10: on a list target with a literal index, the in-range write
overwrites the element in the heap and produces no error; the only other
outcome is a Rust `Vec` index panic — no `UndefinedIndex` (or any other
interpreter error) exists on this path — whereas the read path of `Index`
reports `UndefinedIndex` for the same out-of-range index. -/
theorem c10_indexed_assign_unguarded (s : State) (addr : Nat) (q : ℚ) (v : Value)
    (fuel : Nat)
    (hg : frameGet s.globals "xs" = none)
    (hxs : s.env.get "xs" = some (.list addr)) :
    (toUsize q < (s.getList addr).length →
      assignToList (fuel+2) s (.list addr) (some (.num q)) v =
        (s.setList addr ((s.getList addr).set (toUsize q) v), .ok ())) ∧
    ((assignToList (fuel+2) s (.list addr) (some (.num q)) v).2 = .ok () ∨
      (assignToList (fuel+2) s (.list addr) (some (.num q)) v).2 =
        .error (.panicked "index out of bounds")) ∧
    (¬ toUsize q < (s.getList addr).length →
      runExpression (fuel+2) s (.indexE (.ident "xs") (some (.num q))) =
        (s, .error (.undefinedIndex (toUsize q)))) := by
  have h1 : assignToList (fuel+2) s (.list addr) (some (.num q)) v =
      (if toUsize q < (s.getList addr).length
       then (s.setList addr ((s.getList addr).set (toUsize q) v), .ok ())
       else (s, .error (.panicked "index out of bounds"))) := rfl
  refine ⟨?_, ?_, ?_⟩
  · intro h; rw [h1, if_pos h]
  · by_cases h : toUsize q < (s.getList addr).length
    · left; rw [h1, if_pos h]
    · right; rw [h1, if_neg h]
  · intro h
    rw [runExpression_indexE]
    simp only [runExpression_ident, runExpression_num, hg, hxs]
    rw [List.get?_eq_none.mpr (le_of_not_lt (by simpa [Value.to_number] using h))]
    simp [Value.to_number]

/-! ### Nil-case evaluation lemmas (any fuel) -/

/-- An exhausted loop body proceeds to the next iteration at any fuel. -/
theorem runLoopBody_nil (fuel : Nat) (s : State) :
    runLoopBody fuel s [] = (s, .next) := by cases fuel <;> rfl

/-- No parameters left to default-bind. -/
theorem bindDefaults_nil (fuel : Nat) (s : State) (env : Environment) :
    bindDefaults fuel s env [] = (s, .ok env) := by cases fuel <;> rfl

/-- An empty function body returns no value. -/
theorem runFnBody_nil (fuel : Nat) (s : State) :
    runFnBody fuel s [] = (s, .ok none) := by cases fuel <;> rfl

/-- Iterating no items leaves the state unchanged. -/
theorem forIterate_nil (fuel : Nat) (s : State) (i : Nat) (x : String)
    (ix : Option String) (b : List Statement) :
    forIterate fuel s i [] x ix b = (s, .ok ()) := by cases fuel <;> rfl

/-- A two-element heap list bound to `xs`, for the C10 witness. -/
def c10State : State :=
  { globals := [], env := .mk [[("xs", .list 0)]],
    lists := [[Value.null, Value.null]], envs := [] }

/-- C10, witness: in-range write at index 0 overwrites in the heap;
out-of-range read at index 5 yields `UndefinedIndex(5)`. -/
theorem c10_indexed_assign_witness :
    assignToList 3 c10State (.list 0) (some (.num 0)) (.number 9) =
      (c10State.setList 0 ((c10State.getList 0).set (toUsize 0) (.number 9)), .ok ()) ∧
    runExpression 3 c10State (.indexE (.ident "xs") (some (.num 5))) =
      (c10State, .error (.undefinedIndex (toUsize 5))) :=
  ⟨(c10_indexed_assign_unguarded c10State 0 0 (.number 9) 1 rfl rfl).1 (by decide),
   (c10_indexed_assign_unguarded c10State 0 5 .null 1 rfl rfl).2.2 (by decide)⟩

/-! ### C3 — the arity check counts all arguments, not just positional -/

/-- C3, counterexample: `fn f(a, b) { return b }` called as `f(b = 1)` has
zero nameless arguments but one unsatisfied default-less parameter (`a`),
so the claim requires `TooFewArguments("f", 1, 1)`; the code instead
compares the unsatisfied count against the TOTAL argument count
(`arguments.len()`), does not fail, and returns `1`. -/
theorem c3_counterexample_named_argument_satisfies_arity :
    runExpression 10 c3State (.callE (.ident "f") [.mk (some "b") (.num 1)]) =
      (c3State, .ok (.number 1)) := rfl

/-- A parameter whose default (if any) is a numeric literal, so that
binding it can neither fail nor touch the state. -/
def isLitDefault : Param → Bool
| .mk _ none => true
| .mk _ (some (.num _)) => true
| .mk _ (some _) => false

/-- All defaults of the parameter list are numeric literals. -/
def litDefaultsOnly (params : List Param) : Bool :=
  params.all isLitDefault

/-- Filtering preserves `litDefaultsOnly`. -/
theorem litDefaultsOnly_filter (params : List Param) (q : Param → Bool)
    (h : litDefaultsOnly params = true) : litDefaultsOnly (params.filter q) = true := by
  simp only [litDefaultsOnly, List.all_eq_true] at h ⊢
  exact fun p hp => h p (List.mem_filter.mp hp).1

/-- Binding literal-only defaults always succeeds and leaves the
interpreter state untouched. -/
theorem bindDefaults_lit (ps : List Param) :
    ∀ (fuel : Nat) (s : State) (env : Environment),
      litDefaultsOnly ps = true → ps.length < fuel →
      ∃ env', bindDefaults fuel s env ps = (s, .ok env') := by
  induction ps with
  | nil => exact fun fuel s env _ _ => ⟨env, bindDefaults_nil fuel s env⟩
  | cons p rest ih =>
    intro fuel s env hlit hfuel
    obtain ⟨hp, hrest⟩ : isLitDefault p = true ∧ litDefaultsOnly rest = true := by
      simpa [litDefaultsOnly, List.all_cons, Bool.and_eq_true] using hlit
    obtain ⟨f, rfl⟩ : ∃ f, fuel = f + 1 := ⟨fuel - 1, by omega⟩
    have hlen : rest.length < f := by
      simp only [List.length_cons] at hfuel; omega
    cases p with
    | mk nm ini =>
      cases ini with
      | none =>
        obtain ⟨env', he⟩ := ih f s env hrest hlen
        exact ⟨env', by rw [show bindDefaults (f+1) s env (Param.mk nm none :: rest) =
          bindDefaults f s env rest from rfl, he]⟩
      | some e =>
        obtain ⟨g, rfl⟩ : ∃ g, f = g + 1 := ⟨f - 1, by omega⟩
        cases e
        case num n =>
          obtain ⟨env', he⟩ := ih (g+1) s (env.set nm (.number n)) hrest hlen
          refine ⟨env', ?_⟩
          rw [show bindDefaults (g+1+1) s env (Param.mk nm (some (.num n)) :: rest) =
            bindDefaults (g+1) s (env.set nm (.number n)) rest from rfl, he]
        all_goals exact Bool.noConfusion hp

/-- One-step unfolding of `call` on a context-free user function. -/
theorem callV_function_noctx (fuel : Nat) (s : State) (name : String)
    (params : List Param) (body : List Statement) (env : Option Environment)
    (args : List ArgValued) :
    callV (fuel+1) s (.function name params body env none) args =
      (if args.length <
          ((paramsToSatisfy params args).filter (fun p => !p.hasInitial)).length then
        (s, .error (.tooFewArguments name args.length
          ((paramsToSatisfy params args).filter (fun p => !p.hasInitial)).length))
      else
        match bindDefaults fuel s (match env with | some e => e | none => Environment.new)
                (params.filter (fun p => p.hasInitial)) with
        | (s₂, .error e) => (s₂, .error e)
        | (s₂, .ok newEnv₂) =>
          match runFnBody fuel
              { s₂ with env := bindPositional (bindNamed newEnv₂ args)
                                 (paramsToSatisfy params args) args }
              body with
          | (s₄, .error e) => (s₄, .error e)
          | (s₄, .ok ret) => ({ s₄ with env := s.env }, .ok (ret.getD .null))) := rfl

/-- C3, amended: a call of a user function (no bound `this` context, body
and defaults neutral) fails with
`TooFewArguments(name, totalArgCount, requiredCount)` exactly when the
TOTAL number of arguments — named and positional together, not the
nameless ones alone — is smaller than the number of parameters that have
no default and are not satisfied by a matching named argument; a
parameter with a default still never counts as required. -/
theorem c3_amended_arity_counts_all_arguments (name : String) (params : List Param)
    (args : List ArgValued) (s : State) (fuel : Nat)
    (hlit : litDefaultsOnly params = true)
    (hfuel : params.length + 2 ≤ fuel) :
    ((callV fuel s (.function name params [] none none) args).2 =
        .error (.tooFewArguments name args.length
          ((paramsToSatisfy params args).filter (fun p => !p.hasInitial)).length) ↔
      args.length <
        ((paramsToSatisfy params args).filter (fun p => !p.hasInitial)).length) := by
  obtain ⟨f, rfl⟩ : ∃ f, fuel = f + 1 := ⟨fuel - 1, by omega⟩
  rw [callV_function_noctx]
  by_cases h : args.length <
      ((paramsToSatisfy params args).filter (fun p => !p.hasInitial)).length
  · rw [if_pos h]
    exact iff_of_true rfl h
  · rw [if_neg h]
    obtain ⟨env', hbd⟩ := bindDefaults_lit (params.filter (fun p => p.hasInitial)) f s
      (match (none : Option Environment) with | some e => e | none => Environment.new)
      (litDefaultsOnly_filter params _ hlit)
      (lt_of_le_of_lt (List.length_filter_le _ _) (by omega))
    simp only [hbd, runFnBody_nil]
    exact iff_of_false (by simp) h

/-- C3, witness: `fn f(a, b = 7) {}` called with no arguments at all has
one required parameter and zero arguments, so the call fails with
`TooFewArguments("f", 0, 1)`. -/
theorem c3_arity_witness :
    (callV 5 State.initial
        (.function "f" [.mk "a" none, .mk "b" (some (.num 7))] [] none none) []).2 =
      .error (.tooFewArguments "f" 0 1) := by
  have h := c3_amended_arity_counts_all_arguments "f"
    [.mk "a" none, .mk "b" (some (.num 7))] [] State.initial 5
    (by decide) (by decide)
  exact h.mpr (by decide)

/-! ### C6 — for-loop variable cleanup -/

/-- C6, counterexample: after `create x = 5; for x in [] {}` the binding
`x ↦ 5` is still present — the empty-iterable early exit neither binds
nor drops the loop variable, so a pre-existing binding survives the
statement, contradicting the unconditional cleanup claim. -/
theorem c6_counterexample_empty_list_keeps_binding :
    (exec 10 State.initial c6Prog).2 = .ok () ∧
    (exec 10 State.initial c6Prog).1.env.get "x" = some (.number 5) := ⟨rfl, rfl⟩

/-- Dropping a name removes every binding of it from a frame. -/
theorem frameGet_filter_same (f : List (String × Value)) (n : String) :
    frameGet (f.filter (fun p => p.1 != n)) n = none := by
  induction f with
  | nil => rfl
  | cons kv rest ih =>
    obtain ⟨k, v⟩ := kv
    cases hkv : k == n with
    | true => simpa [List.filter_cons, bne, hkv] using ih
    | false => simpa [List.filter_cons, bne, hkv, frameGet] using ih

/-- Filtering cannot create a binding. -/
theorem frameGet_filter_none (f : List (String × Value)) (q : String × Value → Bool)
    (n : String) (h : frameGet f n = none) : frameGet (f.filter q) n = none := by
  induction f with
  | nil => rfl
  | cons kv rest ih =>
    obtain ⟨k, v⟩ := kv
    have hkv : (k == n) = false := by
      cases hc : k == n with
      | true => rw [frameGet, hc, if_pos rfl] at h; exact absurd h (by simp)
      | false => rfl
    have hrest : frameGet rest n = none := by
      rw [frameGet, hkv] at h; simpa using h
    by_cases hq : q (k, v)
    · simpa [List.filter_cons, hq, frameGet, hkv] using ih hrest
    · simpa [List.filter_cons, hq] using ih hrest

/-- Looking up in a one-frame chain is looking up in the frame. -/
theorem framesGet_single (f : List (String × Value)) (n : String) :
    framesGet [f] n = frameGet f n := by
  cases h : frameGet f n <;> simp [framesGet, h]

/-- Writing into a single-frame environment keeps it single-frame. -/
theorem framesSet_single (f : List (String × Value)) (n : String) (v : Value) :
    ∃ f', framesSet [f] n v = [f'] := by
  unfold framesSet
  by_cases h : (frameGet f n).isSome
  · exact ⟨frameUpdate f n v, by rw [if_pos h]⟩
  · refine ⟨f ++ [(n, v)], ?_⟩
    rw [if_neg h]
    show (if (framesGet [] n).isSome then _ else _) = _
    rfl

/-- Iterating a non-empty snapshot with an empty loop body only rewrites
the (single-frame) environment, succeeding and leaving globals and both
heaps unchanged. -/
theorem forIterate_empty_body (vs : List Value) :
    ∀ (fuel i : Nat) (s : State) (f : List (String × Value)) (x : String)
      (ix : Option String),
      s.env = .mk [f] → vs.length < fuel →
      ∃ f', forIterate fuel s i vs x ix [] = ({ s with env := .mk [f'] }, .ok ()) := by
  induction vs with
  | nil =>
    intro fuel i s f x ix hs _
    exact ⟨f, by rw [forIterate_nil, ← hs]⟩
  | cons item rest ih =>
    intro fuel i s f x ix hs hfuel
    obtain ⟨fl, rfl⟩ : ∃ fl, fuel = fl + 1 := ⟨fuel - 1, by omega⟩
    have hlen : rest.length < fl := by
      simp only [List.length_cons] at hfuel; omega
    obtain ⟨fm, rfl⟩ : ∃ fm, fl = fm + 1 := ⟨fl - 1, by omega⟩
    obtain ⟨f₁, hf₁⟩ := framesSet_single f x item
    cases ix with
    | none =>
      obtain ⟨f', hrec⟩ := ih (fm+1) (i+1)
        { s with env := .mk [f₁] } f₁ x none rfl hlen
      refine ⟨f', ?_⟩
      have hstep : forIterate (fm+1+1) s i (item :: rest) x none [] =
          forIterate (fm+1) { s with env := .mk [f₁] } (i+1) rest x none [] := by
        show (match runLoopBody (fm+1) { s with env := s.env.set x item } [] with
              | (s', .next) => forIterate (fm+1) s' (i+1) rest x none []
              | (s', .brk) => (s', .ok ())
              | (s', .err e) => (s', .error e)) = _
        rw [runLoopBody_nil]
        have : s.env.set x item = .mk [f₁] := by
          rw [hs]; show Environment.mk (framesSet [f] x item) = _; rw [hf₁]
        rw [this]
      rw [hstep, hrec]
    | some ixn =>
      obtain ⟨f₂, hf₂⟩ := framesSet_single f₁ ixn (.number i)
      obtain ⟨f', hrec⟩ := ih (fm+1) (i+1)
        { s with env := .mk [f₂] } f₂ x (some ixn) rfl hlen
      refine ⟨f', ?_⟩
      have hstep : forIterate (fm+1+1) s i (item :: rest) x (some ixn) [] =
          forIterate (fm+1) { s with env := .mk [f₂] } (i+1) rest x (some ixn) [] := by
        show (match runLoopBody (fm+1)
                { s with env := (s.env.set x item).set ixn (.number i) } [] with
              | (s', .next) => forIterate (fm+1) s' (i+1) rest x (some ixn) []
              | (s', .brk) => (s', .ok ())
              | (s', .err e) => (s', .error e)) = _
        rw [runLoopBody_nil]
        have h1 : s.env.set x item = .mk [f₁] := by
          rw [hs]; show Environment.mk (framesSet [f] x item) = _; rw [hf₁]
        have h2 : (s.env.set x item).set ixn (.number i) = .mk [f₂] := by
          rw [h1]; show Environment.mk (framesSet [f₁] ixn (.number i)) = _; rw [hf₂]
        rw [h2]
      rw [hstep, hrec]

/-- One-step unfolding of the `For` arm. -/
theorem runStatement_forS (fuel : Nat) (s : State) (value : String)
    (index : Option String) (iterable : Expression) (thenB : List Statement) :
    runStatement (fuel+1) s (.forS value index iterable thenB) =
      (match runExpression fuel s iterable with
       | (s', .error err) => (s', .error err)
       | (s', .ok iv) =>
         match iv with
         | .list addr =>
           if (s'.getList addr).isEmpty then (s', .ok ())
           else
             match forIterate fuel s' 0 (s'.getList addr) value index thenB with
             | (s'', .error err) => (s'', .error err)
             | (s'', .ok ()) =>
               match index with
               | some ix => ({ s'' with env := (s''.env.drop value).drop ix }, .ok ())
               | none => ({ s'' with env := s''.env.drop value }, .ok ())
         | _ => (s', .error (.invalidIterable iv.typestring))) := rfl

/-- C6, amended: for a NON-EMPTY iterable list, after the `for` statement
finishes normally (empty body) or via `break`, neither the loop variable
nor the optional index variable is bound any longer (they are dropped from
the loop's single frame); when the list is empty, the statement exits
early without binding or dropping anything, so a pre-existing binding of
the loop variable survives. -/
theorem c6_amended_nonempty_loop_drops_bindings (vs : List Value) (fuel : Nat)
    (hne : vs ≠ []) (hfuel : vs.length + 3 ≤ fuel) :
    ((runStatement fuel (c6State vs) (.forS "x" (some "i") (.ident "xs") [])).2 =
        .ok () ∧
     (runStatement fuel (c6State vs)
         (.forS "x" (some "i") (.ident "xs") [])).1.env.get "x" = none ∧
     (runStatement fuel (c6State vs)
         (.forS "x" (some "i") (.ident "xs") [])).1.env.get "i" = none) ∧
    ((runStatement fuel (c6State vs) (.forS "x" none (.ident "xs") [.breakS])).2 =
        .ok () ∧
     (runStatement fuel (c6State vs)
         (.forS "x" none (.ident "xs") [.breakS])).1.env.get "x" = none) := by
  obtain ⟨item, rest, rfl⟩ : ∃ a l, vs = a :: l := by
    cases vs with
    | nil => exact absurd rfl hne
    | cons a l => exact ⟨a, l, rfl⟩
  obtain ⟨F, rfl⟩ : ∃ F, fuel = F + 1 := ⟨fuel - 1, by omega⟩
  have hF : rest.length + 3 ≤ F := by
    simp only [List.length_cons] at hfuel; omega
  obtain ⟨G, rfl⟩ : ∃ G, F = G + 1 := ⟨F - 1, by omega⟩
  have hit : runExpression (G+1) (c6State (item :: rest)) (.ident "xs") =
      (c6State (item :: rest), .ok (.list 0)) := rfl
  have hgl : (c6State (item :: rest)).getList 0 = item :: rest := rfl
  constructor
  · -- indexed form, empty body
    obtain ⟨f', hfi⟩ := forIterate_empty_body (item :: rest) (G+1) 0
      (c6State (item :: rest)) [("xs", Value.list 0)] "x" (some "i") rfl
      (by simp only [List.length_cons]; omega)
    have hrun : runStatement (G+1+1) (c6State (item :: rest))
        (.forS "x" (some "i") (.ident "xs") []) =
        ({ c6State (item :: rest) with
            env := .mk [(f'.filter (fun p => p.1 != "x")).filter (fun p => p.1 != "i")] },
         .ok ()) := by
      rw [runStatement_forS, hit]
      simp only [hgl, List.isEmpty_cons, Bool.false_eq_true, if_false, hfi]
      rfl
    rw [hrun]
    refine ⟨rfl, ?_, ?_⟩
    · show Environment.get (.mk
        [(f'.filter (fun p => p.1 != "x")).filter (fun p => p.1 != "i")]) "x" = none
      rw [Environment.get, framesGet_single]
      exact frameGet_filter_none _ _ _ (frameGet_filter_same f' "x")
    · show Environment.get (.mk
        [(f'.filter (fun p => p.1 != "x")).filter (fun p => p.1 != "i")]) "i" = none
      rw [Environment.get, framesGet_single]
      exact frameGet_filter_same _ "i"
  · -- value-only form, body is a lone `break`
    obtain ⟨f₁, hf₁⟩ := framesSet_single [("xs", Value.list 0)] "x" item
    obtain ⟨H, rfl⟩ : ∃ H, G = H + 1 := ⟨G - 1, by omega⟩
    obtain ⟨K, rfl⟩ : ∃ K, H = K + 1 := ⟨H - 1, by omega⟩
    have henv : (c6State (item :: rest)).env.set "x" item = .mk [f₁] := by
      show Environment.mk (framesSet [[("xs", Value.list 0)]] "x" item) = _
      rw [hf₁]
    have hbody : runLoopBody (K+1+1)
        { c6State (item :: rest) with env := .mk [f₁] } [.breakS] =
        ({ c6State (item :: rest) with env := .mk [f₁] }, .brk) := rfl
    have hfi : forIterate (K+1+1+1) (c6State (item :: rest)) 0 (item :: rest)
        "x" none [.breakS] =
        ({ c6State (item :: rest) with env := .mk [f₁] }, .ok ()) := by
      show (match runLoopBody (K+1+1)
              { c6State (item :: rest) with
                  env := (c6State (item :: rest)).env.set "x" item } [.breakS] with
            | (s', .next) => forIterate (K+1+1) s' 1 rest "x" none [.breakS]
            | (s', .brk) => (s', .ok ())
            | (s', .err e) => (s', .error e)) = _
      rw [henv, hbody]
    have hrun : runStatement (K+1+1+1+1) (c6State (item :: rest))
        (.forS "x" none (.ident "xs") [.breakS]) =
        ({ c6State (item :: rest) with
            env := .mk [f₁.filter (fun p => p.1 != "x")] },
         .ok ()) := by
      rw [runStatement_forS, hit]
      simp only [hgl, List.isEmpty_cons, Bool.false_eq_true, if_false, hfi]
      rfl
    rw [hrun]
    refine ⟨rfl, ?_⟩
    show Environment.get (.mk [f₁.filter (fun p => p.1 != "x")]) "x" = none
    rw [Environment.get, framesGet_single]
    exact frameGet_filter_same f₁ "x"

/-- C6, witness: the amended theorem on the one-element list `[0]`. -/
theorem c6_loop_drop_witness :
    ((runStatement 5 (c6State [.number 0]) (.forS "x" (some "i") (.ident "xs") [])).2 =
        .ok () ∧
     (runStatement 5 (c6State [.number 0])
         (.forS "x" (some "i") (.ident "xs") [])).1.env.get "x" = none ∧
     (runStatement 5 (c6State [.number 0])
         (.forS "x" (some "i") (.ident "xs") [])).1.env.get "i" = none) ∧
    ((runStatement 5 (c6State [.number 0]) (.forS "x" none (.ident "xs") [.breakS])).2 =
        .ok () ∧
     (runStatement 5 (c6State [.number 0])
         (.forS "x" none (.ident "xs") [.breakS])).1.env.get "x" = none) :=
  c6_amended_nonempty_loop_drops_bindings [.number 0] 5
    (List.cons_ne_nil _ _) (by decide)

end Lugli
